import Mathlib

/-!
# Verification of the synthetic e-commerce data pipeline

Shallow embedding of the repository's data generator
(`scripts/advanced_data_generator.py`), its integrity validator, the
quick test generator (`generate_synthetic_data.py`) and the ingestion
engine (`scripts/advanced_ingestion.py`).

Modelling conventions:
* Python floats and `round(x, 2)` are modelled over `ℚ` with
  round-half-to-even (Python 3 `round` semantics).
* `datetime` dates are modelled as integer day numbers; timestamps that
  need sub-day resolution (payment dates) are integer hours, a date `d`
  corresponding to hour `24 * d` (midnight).
* The seeded random sources (`numpy.random.default_rng(seed)`, `Faker`)
  are external libraries; every draw the code takes from them is an
  explicit parameter, constrained by the ranges the library calls
  guarantee (e.g. `rng.integers(1, 5) ∈ [1, 4]`,
  `rng.uniform(0.8, 1.0) ∈ [0.8, 1]`).
-/

namespace EcommercePipeline

/-- Round-half-to-even on `ℚ` (Python 3 `round` on an exact value). -/
def roundHalfEven (x : ℚ) : ℤ :=
  let f := ⌊x⌋
  let r := x - f
  if r < 1/2 then f
  else if 1/2 < r then f + 1
  else if 2 ∣ f then f else f + 1

/-- Python's `round(x, 2)`: round to cents, half to even. -/
def round2 (x : ℚ) : ℚ := (roundHalfEven (x * 100) : ℚ) / 100

/-! ## Data model (§3 of the spec, columns as generated by the code) -/

structure Customer where
  customer_id : ℕ
  first_name : String
  last_name : String
  email : String
  signup_date : ℤ
  customer_tier : String
  country : String
  city : String
  loyalty_score : ℚ
  is_active : Bool
  deriving Repr, DecidableEq

structure Product where
  product_id : ℕ
  product_name : String
  category : String
  subcategory : String
  price : ℚ
  cost_price : ℚ
  stock_quantity : ℕ
  supplier : String
  creation_date : ℤ
  is_active : Bool
  deriving Repr, DecidableEq

structure Order where
  order_id : ℕ
  customer_id : ℕ
  order_date : ℤ
  status : String
  shipping_country : String
  shipping_city : String
  total_amount : ℚ
  deriving Repr, DecidableEq

structure OrderItem where
  order_item_id : ℕ
  order_id : ℕ
  product_id : ℕ
  quantity : ℕ
  unit_price : ℚ
  subtotal : ℚ
  deriving Repr, DecidableEq

structure Payment where
  payment_id : ℕ
  order_id : ℕ
  payment_method : String
  amount : ℚ
  payment_status : String
  payment_date : ℤ
  transaction_id : String
  risk_score : ℚ
  deriving Repr, DecidableEq

/-- Default elements standing in for pandas `iloc` on an in-range index. -/
def dfltCustomer : Customer :=
  ⟨0, "", "", "", 0, "", "", "", 0, false⟩

def dfltProduct : Product :=
  ⟨0, "", "", "", 0, 0, 0, "", 0, false⟩

def dfltOrder : Order := ⟨0, 0, 0, "", "", "", 0⟩

def dfltItem : OrderItem := ⟨0, 0, 0, 0, 0, 0⟩

def dfltPayment : Payment := ⟨0, 0, "", 0, "", 0, "", 0⟩

/-- `self.config` of `AdvancedEcommerceDataGenerator.__init__`, with the
date range as inclusive day numbers (`datetime(2023,1,1)` = day 0,
`datetime(2024,1,1)` = day 365). -/
structure Config where
  customer_count : ℕ
  product_count : ℕ
  startDay : ℤ
  endDay : ℤ
  deriving Repr, DecidableEq

def payment_methods : List String :=
  ["credit_card", "debit_card", "paypal", "apple_pay"]

def order_statuses : List String :=
  ["pending", "processing", "shipped", "delivered", "cancelled"]

/-! ## Order status (`generate_orders_and_items`, lines 160–164)

`status_idx = min(4, max(0, 4 - days_ago // 7))`; the `status_weights`
list defined on line 162 is never read, so the status is a function of
`days_ago` alone. -/

def statusIdx (daysAgo : ℤ) : ℕ :=
  (min 4 (max 0 (4 - daysAgo / 7))).toNat

def orderStatus (daysAgo : ℤ) : String :=
  order_statuses.getD (statusIdx daysAgo) ""

/-! ## Random draws consumed by `generate_orders_and_items` -/

/-- The draws for one order item: `rng.integers(0, len(active_products))`,
`rng.integers(1, 3)` and `rng.uniform(0.8, 1.0)`. -/
structure ItemDraw where
  prodIdx : ℕ
  quantity : ℕ
  discount : ℚ
  deriving Repr, DecidableEq

/-- The draws for one order: `rng.integers(0, len(active_customers))` and
the per-item draws (the list length is the `rng.integers(1, 5)` draw). -/
structure OrderDraw where
  custIdx : ℕ
  itemDraws : List ItemDraw
  deriving Repr, DecidableEq

def ValidItemDraw (numProducts : ℕ) (d : ItemDraw) : Prop :=
  d.prodIdx < numProducts ∧ (d.quantity = 1 ∨ d.quantity = 2) ∧
    4/5 ≤ d.discount ∧ d.discount ≤ 1

def ValidOrderDraw (numCustomers numProducts : ℕ) (od : OrderDraw) : Prop :=
  od.custIdx < numCustomers ∧ 1 ≤ od.itemDraws.length ∧ od.itemDraws.length ≤ 4 ∧
    ∀ d ∈ od.itemDraws, ValidItemDraw numProducts d

instance (n : ℕ) (d : ItemDraw) : Decidable (ValidItemDraw n d) := by
  unfold ValidItemDraw; infer_instance

instance (nc np : ℕ) (od : OrderDraw) : Decidable (ValidOrderDraw nc np od) := by
  unfold ValidOrderDraw; infer_instance

/-- Per-day draws for the whole date walk: day offset `i` from the range
start maps to the list of order draws of that day (the list length is the
`rng.poisson(base_orders_per_day)` draw). -/
def ValidOrderDraws (numCustomers numProducts : ℕ) (draws : ℕ → List OrderDraw) : Prop :=
  ∀ i, ∀ od ∈ draws i, ValidOrderDraw numCustomers numProducts od

/-! ## `generate_orders_and_items` (lines 129–209) -/

/-- Inner item loop (lines 180–197): returns the generated items, the
raw (unrounded) `order_total` accumulator and the next `item_id`. -/
def genItems (activeProducts : List Product) (orderId itemId : ℕ) :
    List ItemDraw → List OrderItem × ℚ × ℕ
  | [] => ([], 0, itemId)
  | d :: ds =>
      let product := activeProducts.getD d.prodIdx dfltProduct
      let actual_price := product.price * d.discount
      let item : OrderItem :=
        { order_item_id := itemId
          order_id := orderId
          product_id := product.product_id
          quantity := d.quantity
          unit_price := round2 actual_price
          subtotal := round2 (d.quantity * actual_price) }
      let (rest, tot, iid) := genItems activeProducts orderId (itemId + 1) ds
      (item :: rest, (d.quantity : ℚ) * actual_price + tot, iid)

/-- One order (lines 158–201): builds the order row and its items. -/
def genOneOrder (activeCustomers : List Customer) (activeProducts : List Product)
    (endDay currentDay : ℤ) (orderId itemId : ℕ) (od : OrderDraw) :
    Order × List OrderItem × ℕ :=
  let customer := activeCustomers.getD od.custIdx dfltCustomer
  let daysAgo := endDay - currentDay
  let r := genItems activeProducts orderId itemId od.itemDraws
  ({ order_id := orderId
     customer_id := customer.customer_id
     order_date := currentDay
     status := orderStatus daysAgo
     shipping_country := customer.country
     shipping_city := customer.city
     total_amount := round2 r.2.1 }, r.1, r.2.2)

/-- The `for _ in range(daily_orders)` loop of one day. -/
def genDayOrders (activeCustomers : List Customer) (activeProducts : List Product)
    (endDay currentDay : ℤ) :
    List OrderDraw → ℕ → ℕ → List Order × List OrderItem × ℕ × ℕ
  | [], orderId, itemId => ([], [], orderId, itemId)
  | od :: ods, orderId, itemId =>
      let r1 :=
        genOneOrder activeCustomers activeProducts endDay currentDay orderId itemId od
      let r2 :=
        genDayOrders activeCustomers activeProducts endDay currentDay ods
          (orderId + 1) r1.2.2
      (r1.1 :: r2.1, r1.2.1 ++ r2.2.1, r2.2.2.1, r2.2.2.2)

/-- The `while current_date <= end` date walk (lines 142–203); each
element pairs a day number with that day's order draws. -/
def genDays (activeCustomers : List Customer) (activeProducts : List Product)
    (endDay : ℤ) :
    List (ℤ × List OrderDraw) → ℕ → ℕ → List Order × List OrderItem
  | [], _, _ => ([], [])
  | (day, ods) :: days, orderId, itemId =>
      let r1 :=
        genDayOrders activeCustomers activeProducts endDay day ods orderId itemId
      let r2 :=
        genDays activeCustomers activeProducts endDay days r1.2.2.1 r1.2.2.2
      (r1.1 ++ r2.1, r1.2.1 ++ r2.2)

/-- The days walked by the loop (start .. end inclusive), each with its
daily draws. -/
def dayDraws (cfg : Config) (draws : ℕ → List OrderDraw) : List (ℤ × List OrderDraw) :=
  (List.range (cfg.endDay + 1 - cfg.startDay).toNat).map
    (fun (i : ℕ) => (cfg.startDay + (i : ℤ), draws i))

/-- `generate_orders_and_items`: filters to active customers/products and
runs the date walk with `order_id = item_id = 1`. -/
def generate_orders_and_items (cfg : Config)
    (customers : List Customer) (products : List Product)
    (draws : ℕ → List OrderDraw) : List Order × List OrderItem :=
  let active_customers := customers.filter (·.is_active)
  let active_products := products.filter (·.is_active)
  genDays active_customers active_products cfg.endDay (dayDraws cfg draws) 1 1

/-! ## `generate_customers` (lines 39–70) -/

/-- The draws one payment consumes: `rng.integers(1, 24)` (hour offset),
`rng.random()` (status coin), `rng.choice(payment_methods)` (as an
index), `fake.uuid4()[:16]` and `rng.normal(0.1, 0.3)`. -/
structure PaymentDraw where
  hourOffset : ℕ
  statusCoin : ℚ
  methodIdx : ℕ
  transaction_id : String
  riskScore : ℚ
  deriving Repr, DecidableEq

/-- `rng.integers(1, 24)` lies in `[1, 23]`. -/
def ValidPaymentDraw (d : PaymentDraw) : Prop :=
  1 ≤ d.hourOffset ∧ d.hourOffset ≤ 23

instance (d : PaymentDraw) : Decidable (ValidPaymentDraw d) := by
  unfold ValidPaymentDraw; infer_instance

/-- Payment status logic (lines 223–227). -/
def paymentStatus (orderStat : String) (coin : ℚ) : String :=
  if orderStat = "cancelled" then
    (if coin > 1/2 then "refunded" else "failed")
  else
    (if coin > 1/20 then "completed" else "failed")

/-- `generate_payments`: one payment per order row, `payment_id` counting
from 1; payment dates in hours (`order_date` day `d` is hour `24 * d`). -/
def generate_payments (orders : List Order) (pd : ℕ → PaymentDraw) : List Payment :=
  orders.enum.map fun (i, o) =>
    let d := pd i
    { payment_id := i + 1
      order_id := o.order_id
      payment_method := payment_methods.getD d.methodIdx ""
      amount := o.total_amount
      payment_status := paymentStatus o.status d.statusCoin
      payment_date := 24 * o.order_date + d.hourOffset
      transaction_id := d.transaction_id
      risk_score := d.riskScore }

/-! ## `_validate_data_integrity` (lines 268–285) -/

/-- The draws one quick payment consumes: the method choice, the status
choice (both as indexes), a transaction id and `np.random.normal`. -/
structure QuickPaymentDraw where
  methodIdx : ℕ
  statusIdx : ℕ
  transaction_id : String
  riskScore : ℚ
  deriving Repr, DecidableEq

def quick_payment_methods : List String := ["credit_card", "debit_card", "paypal"]

def quick_payment_statuses : List String := ["completed", "failed", "refunded"]

def generate_quick_payments (orders : List Order) (qd : ℕ → QuickPaymentDraw) :
    List Payment :=
  orders.enum.map fun (i, o) =>
    let d := qd i
    { payment_id := i + 1
      order_id := i + 1
      payment_method := quick_payment_methods.getD d.methodIdx ""
      amount := o.total_amount
      payment_status := quick_payment_statuses.getD d.statusIdx ""
      payment_date := o.order_date
      transaction_id := d.transaction_id
      risk_score := d.riskScore }

/-! The quick generator's order-item loop
(`generate_synthetic_data.py`, lines 67–88): for each `order_id` in
`range(1, 101)` it draws `num_items = np.random.randint(1, 4)` items;
each item draws `product_id = np.random.randint(1, 31)` and
`quantity = np.random.randint(1, 3)`, looks the product up in the
products table, and appends the item only when the lookup is non-empty,
taking the first matching row's price. -/

/-- The draws one quick order item consumes. -/
structure QuickItemDraw where
  product_id : ℕ
  quantity : ℕ
  deriving Repr, DecidableEq

/-- The `for _ in range(num_items)` loop of one quick order (lines
72–87): returns the appended items and the next `item_id`. -/
def quickItemsForOrder (products : List Product) (order_id : ℕ) :
    ℕ → List QuickItemDraw → List OrderItem × ℕ
  | itemId, [] => ([], itemId)
  | itemId, d :: ds =>
      match products.filter (fun p => decide (p.product_id = d.product_id)) with
      | [] => quickItemsForOrder products order_id itemId ds
      | p :: _ =>
          let item : OrderItem :=
            { order_item_id := itemId
              order_id := order_id
              product_id := d.product_id
              quantity := d.quantity
              unit_price := p.price
              subtotal := round2 (d.quantity * p.price) }
          let r := quickItemsForOrder products order_id (itemId + 1) ds
          (item :: r.1, r.2)

/-- The `for order_id in range(1, 101)` loop (lines 68–87): one entry of
`drawss` per order, `order_id` and `item_id` threaded from 1. -/
def generate_quick_order_items (products : List Product) :
    List (List QuickItemDraw) → ℕ → ℕ → List OrderItem
  | [], _, _ => []
  | ds :: rest, order_id, itemId =>
      let r := quickItemsForOrder products order_id itemId ds
      r.1 ++ generate_quick_order_items products rest (order_id + 1) r.2

/-- What the quick generator's RNG calls and products table guarantee:
1–3 item draws per order (`np.random.randint(1, 4)`), quantity 1 or 2
(`np.random.randint(1, 3)`), and every drawn product id
(`np.random.randint(1, 31)`) present among the products (whose ids are
`range(1, 31)`). -/
def ValidQuickItemDraws (products : List Product)
    (drawss : List (List QuickItemDraw)) : Prop :=
  ∀ ds ∈ drawss, 1 ≤ ds.length ∧ ds.length ≤ 3 ∧
    ∀ d ∈ ds, (d.quantity = 1 ∨ d.quantity = 2) ∧
      ∃ p ∈ products, p.product_id = d.product_id

/-- Concrete quick item draws: one order with two items of product 1. -/
def exQuickItems : List (List QuickItemDraw) := [[⟨1, 1⟩, ⟨1, 2⟩]]

/-! ## Ingestion engine (`scripts/advanced_ingestion.py`) -/

/-- One cell of an ingested CSV, as pandas sees it: a number, a string,
or a null (`NaN`). -/
inductive CellValue
  | num (q : ℚ)
  | str (s : String)
  | null
  deriving Repr, DecidableEq

/-- A row maps column names to cells. -/
def Row := List (String × CellValue)

instance : DecidableEq Row := inferInstanceAs (DecidableEq (List (String × CellValue)))

/-- A parsed CSV. -/
structure DataFrame where
  cols : List String
  rows : List Row
  deriving DecidableEq

def getCell (r : Row) (c : String) : CellValue :=
  ((r : List (String × CellValue)).lookup c).getD .null

def isNullCell : CellValue → Bool
  | .null => true
  | _ => false

/-- `df[col] <= 0` on one cell: false on strings and nulls (pandas `NaN`
comparisons are false). -/
def cellLeZero : CellValue → Bool
  | .num q => decide (q ≤ 0)
  | _ => false

/-- `df[col] < 0` on one cell. -/
def cellNegative : CellValue → Bool
  | .num q => decide (q < 0)
  | _ => false

/-- `critical_columns` of `validate_data_quality` (lines 167–173). -/
def criticalColumns (t : String) : List String :=
  if t = "customers" then ["customer_id", "email", "first_name", "last_name"]
  else if t = "products" then ["product_id", "product_name", "price"]
  else if t = "orders" then ["order_id", "customer_id", "order_date", "total_amount"]
  else if t = "order_items" then ["order_item_id", "order_id", "product_id", "quantity"]
  else if t = "payments" then ["payment_id", "order_id", "amount", "payment_status"]
  else []

/-- `validate_data_quality` (lines 157–208), returning `is_valid`: null
checks on the table's critical columns, then `quantity <= 0` and
`price < 0` checks when those columns exist. -/
def validate_data_quality (df : DataFrame) (table_name : String) : Bool :=
  let nullIssue := (criticalColumns table_name).any fun c =>
    df.cols.contains c && df.rows.any fun r => isNullCell (getCell r c)
  let qtyIssue := df.cols.contains "quantity" &&
    df.rows.any fun r => cellLeZero (getCell r "quantity")
  let priceIssue := df.cols.contains "price" &&
    df.rows.any fun r => cellNegative (getCell r "price")
  !(nullIssue || qtyIssue || priceIssue)

/-- The five tables `model_mapping` knows (lines 232–238). -/
def model_tables : List String :=
  ["customers", "products", "orders", "order_items", "payments"]

/-- The database: tables inserted so far. -/
abbrev Db := List (String × DataFrame)

/-- `ingest_table` (lines 210–277): `none` stands for a missing CSV file;
on any failure nothing is inserted and `false` is returned. The bulk
insert itself succeeds in the model. -/
def ingest_table (table_name : String) (csv : Option DataFrame) (db : Db) :
    Bool × Db :=
  match csv with
  | none => (false, db)
  | some df =>
      if validate_data_quality df table_name = false then (false, db)
      else if model_tables.contains table_name = false then (false, db)
      else (true, (db : List (String × DataFrame)) ++ [(table_name, df)])

/-- The per-table success flag of `ingest_table` does not depend on the
database contents. -/
def tableOk (table_name : String) (csv : Option DataFrame) : Bool :=
  (ingest_table table_name csv []).1

/-- `ingestion_order` (lines 289–295), with `.csv` stripped. -/
def ingestion_order : List String :=
  ["customers", "products", "orders", "order_items", "payments"]

/-- `ingest_all_data` (lines 279–312): processes every table of the fixed
order, recording each table's flag and threading the database. `files`
maps a table name to its CSV, `none` when the file is missing. -/
def ingest_all_data (files : String → Option DataFrame) :
    List (String × Bool) × Db :=
  ingestion_order.foldl
    (fun acc t =>
      let r := ingest_table t (files t) acc.2
      (acc.1 ++ [(t, r.1)], r.2))
    ([], ([] : Db))

/-- Whether a table's CSV has a null in one of that table's declared
critical columns (the condition of lines 175–179). -/
def hasNullCriticalCol (t : String) (csv : Option DataFrame) : Bool :=
  match csv with
  | none => false
  | some df => (criticalColumns t).any fun c =>
      df.cols.contains c && df.rows.any fun r => isNullCell (getCell r c)

/-- `main` of the ingestion script (lines 334–357): exit code 0 when
every table's flag is true, 1 otherwise. -/
def ingestion_main_exit (files : String → Option DataFrame) : ℕ :=
  let results := (ingest_all_data files).1
  if results.all (fun r => r.2) then 0 else 1

/-! ## Seeded runs (determinism, §5 of the spec)

Modelled from the spec: the repository's random sources
(`numpy.random.default_rng(seed)`, `Faker.seed(seed)`) are external
library code; per the spec, "All randomness is seeded for
reproducibility", so they are modelled as a deterministic stream of
draws computed from the seed. -/

/-- The raw (unrounded) money amount of one item draw:
`quantity * (product['price'] * discount)`. -/
def rawAmount (activeProducts : List Product) (d : ItemDraw) : ℚ :=
  (d.quantity : ℚ) * ((activeProducts.getD d.prodIdx dfltProduct).price * d.discount)

/-! ## Concrete example inputs used to instantiate the theorems -/

def exCustomer : Customer :=
  ⟨1, "Ann", "Lee", "ann@example.com", 0, "standard", "US", "NYC", 50, true⟩

def exProduct : Product :=
  ⟨1, "Pen Set", "Books", "sub", 10, 5, 7, "ACME", 0, true⟩

/-- A one-day date range with one customer and one product. -/
def exConfig1 : Config := ⟨1, 1, 0, 0⟩

/-- One order on day 0 with two items, each at a raw discounted price of
`10 * 2001/2500 = 8.004`. -/
def exDrawsC1 : ℕ → List OrderDraw :=
  fun i => if i = 0 then [⟨0, [⟨0, 1, 2001/2500⟩, ⟨0, 1, 2001/2500⟩]⟩] else []

/-- One order on day 0 with a single undiscounted item. -/
def exDrawsSimple : ℕ → List OrderDraw :=
  fun i => if i = 0 then [⟨0, [⟨0, 1, 1⟩]⟩] else []

def exPayDraw : ℕ → PaymentDraw := fun _ => ⟨5, 1, 0, "tx", 0⟩

def exQuickDraw : ℕ → QuickPaymentDraw := fun _ => ⟨0, 0, "tx", 0⟩

def exOrder : Order := ⟨1, 1, 100, "pending", "US", "NYC", 50⟩

def exOrderCancelled : Order := ⟨2, 1, 200, "cancelled", "US", "NYC", 30⟩

/-- An empty CSV: every quality check passes vacuously. -/
def dfEmpty : DataFrame := ⟨[], []⟩

/-- A customers CSV whose only row has a null email. -/
def dfCustomersNull : DataFrame :=
  ⟨["customer_id", "email", "first_name", "last_name"],
   [[("customer_id", .num 1), ("email", .null),
     ("first_name", .str "Ann"), ("last_name", .str "Lee")]]⟩

/-- All five CSVs present and clean. -/
def filesOk : String → Option DataFrame := fun _ => some dfEmpty

/-- Like `filesOk` but the customers CSV has a null email. -/
def filesBad : String → Option DataFrame :=
  fun t => if t = "customers" then some dfCustomersNull else some dfEmpty

/-! # Lemmas -/

theorem abs_roundHalfEven_sub_le (x : ℚ) : |(roundHalfEven x : ℚ) - x| ≤ 1/2 := by
  unfold roundHalfEven
  have hfl : (⌊x⌋ : ℚ) ≤ x := Int.floor_le x
  have hfu : x < ⌊x⌋ + 1 := Int.lt_floor_add_one x
  by_cases h1 : x - (⌊x⌋ : ℚ) < 1/2
  · simp only [h1, if_true]
    rw [abs_sub_comm, abs_of_nonneg (by linarith)]
    linarith
  · simp only [h1, if_false]
    by_cases h2 : (1:ℚ)/2 < x - (⌊x⌋ : ℚ)
    · simp only [h2, if_true]
      push_cast
      rw [abs_of_nonneg (by linarith)]
      linarith
    · have heq : x - (⌊x⌋ : ℚ) = 1/2 := le_antisymm (not_lt.mp h2) (not_lt.mp h1)
      simp only [h2, if_false]
      by_cases h3 : 2 ∣ ⌊x⌋
      · simp only [h3, if_true]
        rw [abs_sub_comm, abs_of_nonneg (by linarith)]
        linarith
      · simp only [h3, if_false]
        push_cast
        rw [abs_of_nonneg (by linarith)]
        linarith

theorem abs_round2_sub_le (x : ℚ) : |round2 x - x| ≤ 1/200 := by
  have h := abs_roundHalfEven_sub_le (x * 100)
  have : round2 x - x = ((roundHalfEven (x * 100) : ℚ) - x * 100) / 100 := by
    unfold round2; ring
  rw [this, abs_div]
  rw [show |(100:ℚ)| = 100 by norm_num]
  linarith [abs_nonneg ((roundHalfEven (x * 100) : ℚ) - x * 100)]

theorem abs_sum_round2_sub_sum_le (l : List ℚ) :
    |(l.map round2).sum - l.sum| ≤ l.length / 200 := by
  induction l with
  | nil => simp
  | cons x xs ih =>
      have hx := abs_round2_sub_le x
      have : (((x :: xs).map round2).sum - (x :: xs).sum)
          = (round2 x - x) + ((xs.map round2).sum - xs.sum) := by
        simp [List.sum_cons]; ring
      rw [this]
      calc |(round2 x - x) + ((xs.map round2).sum - xs.sum)|
          ≤ |round2 x - x| + |(xs.map round2).sum - xs.sum| := abs_add _ _
        _ ≤ 1/200 + xs.length / 200 := add_le_add hx ih
        _ = ((x :: xs).length : ℚ) / 200 := by
            push_cast [List.length_cons]
            ring

/-- The per-order discrepancy bound: the rounded total of the raw sum can
differ from the sum of the per-item rounded subtotals by at most half a
cent for the total plus half a cent per item. -/
theorem abs_round2_sum_sub_sum_round2_le (l : List ℚ) :
    |round2 l.sum - (l.map round2).sum| ≤ (l.length + 1) / 200 := by
  have h1 := abs_round2_sub_le l.sum
  have h2 := abs_sum_round2_sub_sum_le l
  calc |round2 l.sum - (l.map round2).sum|
      = |(round2 l.sum - l.sum) + (l.sum - (l.map round2).sum)| := by ring_nf
    _ ≤ |round2 l.sum - l.sum| + |l.sum - (l.map round2).sum| := abs_add _ _
    _ = |round2 l.sum - l.sum| + |(l.map round2).sum - l.sum| := by rw [abs_sub_comm l.sum]
    _ ≤ 1/200 + l.length / 200 := add_le_add h1 h2
    _ = (l.length + 1) / 200 := by ring

/-! ### `genItems` structure -/

theorem genItems_length (p : List Product) (oid iid : ℕ) (ds : List ItemDraw) :
    (genItems p oid iid ds).1.length = ds.length := by
  induction ds generalizing iid with
  | nil => simp [genItems]
  | cons d ds ih => simp [genItems, ih]

theorem genItems_itemId (p : List Product) (oid iid : ℕ) (ds : List ItemDraw) :
    (genItems p oid iid ds).2.2 = iid + ds.length := by
  induction ds generalizing iid with
  | nil => simp [genItems]
  | cons d ds ih => simp [genItems, ih]; omega

theorem genItems_orderId (p : List Product) (oid iid : ℕ) (ds : List ItemDraw) :
    ∀ it ∈ (genItems p oid iid ds).1, it.order_id = oid := by
  induction ds generalizing iid with
  | nil => simp [genItems]
  | cons d ds ih =>
      intro it hit
      simp only [genItems, List.mem_cons] at hit
      rcases hit with h | h
      · rw [h]
      · exact ih (iid + 1) it h

theorem genItems_subtotals (p : List Product) (oid iid : ℕ) (ds : List ItemDraw) :
    (genItems p oid iid ds).1.map (·.subtotal)
      = ds.map (fun d => round2 (rawAmount p d)) := by
  induction ds generalizing iid with
  | nil => simp [genItems]
  | cons d ds ih => simp [genItems, ih, rawAmount, mul_assoc]

theorem genItems_total (p : List Product) (oid iid : ℕ) (ds : List ItemDraw) :
    (genItems p oid iid ds).2.1 = (ds.map (rawAmount p)).sum := by
  induction ds generalizing iid with
  | nil => simp [genItems]
  | cons d ds ih => simp [genItems, ih, rawAmount, mul_assoc]

theorem genItems_quantity (p : List Product) (oid iid : ℕ) (ds : List ItemDraw) :
    ∀ it ∈ (genItems p oid iid ds).1, ∃ d ∈ ds, it.quantity = d.quantity := by
  induction ds generalizing iid with
  | nil => simp [genItems]
  | cons d ds ih =>
      intro it hit
      simp only [genItems, List.mem_cons] at hit
      rcases hit with h | h
      · exact ⟨d, List.mem_cons_self _ _, by rw [h]⟩
      · obtain ⟨d', hd', hq⟩ := ih (iid + 1) it h
        exact ⟨d', List.mem_cons_of_mem _ hd', hq⟩

/-! ### `genDayOrders` structure -/

theorem genDayOrders_oid (c : List Customer) (p : List Product) (e day : ℤ)
    (ods : List OrderDraw) : ∀ oid iid,
    (genDayOrders c p e day ods oid iid).2.2.1 = oid + ods.length := by
  induction ods with
  | nil => intro oid iid; simp [genDayOrders]
  | cons od ods ih =>
      intro oid iid
      simp [genDayOrders, ih]
      omega

theorem genDayOrders_ids (c : List Customer) (p : List Product) (e day : ℤ)
    (ods : List OrderDraw) : ∀ oid iid,
    (genDayOrders c p e day ods oid iid).1.map (·.order_id)
      = List.range' oid ods.length := by
  induction ods with
  | nil => intro oid iid; simp [genDayOrders]
  | cons od ods ih =>
      intro oid iid
      simp [genDayOrders, genOneOrder, ih, List.range'_succ]

theorem genDayOrders_item_bounds (c : List Customer) (p : List Product) (e day : ℤ)
    (ods : List OrderDraw) : ∀ oid iid,
    ∀ it ∈ (genDayOrders c p e day ods oid iid).2.1,
      oid ≤ it.order_id ∧ it.order_id < oid + ods.length := by
  induction ods with
  | nil => intro oid iid; simp [genDayOrders]
  | cons od ods ih =>
      intro oid iid it hit
      simp only [genDayOrders, List.mem_append] at hit
      rcases hit with h | h
      · have := genItems_orderId p oid iid od.itemDraws it h
        simp only [this, List.length_cons]
        omega
      · have := ih (oid + 1) _ it h
        simp only [List.length_cons]
        omega

theorem genDayOrders_date_status (c : List Customer) (p : List Product) (e day : ℤ)
    (ods : List OrderDraw) : ∀ oid iid,
    ∀ o ∈ (genDayOrders c p e day ods oid iid).1,
      o.order_date = day ∧ o.status = orderStatus (e - day) := by
  induction ods with
  | nil => intro oid iid; simp [genDayOrders]
  | cons od ods ih =>
      intro oid iid o ho
      simp only [genDayOrders, List.mem_cons] at ho
      rcases ho with h | h
      · subst h; exact ⟨rfl, rfl⟩
      · exact ih (oid + 1) _ o h

theorem genDayOrders_items_length (c : List Customer) (p : List Product) (e day : ℤ)
    (ods : List OrderDraw) : ∀ oid iid,
    (genDayOrders c p e day ods oid iid).2.1.length
      = (ods.map (·.itemDraws.length)).sum := by
  induction ods with
  | nil => intro oid iid; simp [genDayOrders]
  | cons od ods ih =>
      intro oid iid
      simp [genDayOrders, genOneOrder, ih, genItems_length]

theorem genDayOrders_quantity (c : List Customer) (p : List Product) (e day : ℤ)
    (ods : List OrderDraw) : ∀ oid iid,
    ∀ it ∈ (genDayOrders c p e day ods oid iid).2.1,
      ∃ od ∈ ods, ∃ d ∈ od.itemDraws, it.quantity = d.quantity := by
  induction ods with
  | nil => intro oid iid; simp [genDayOrders]
  | cons od ods ih =>
      intro oid iid it hit
      simp only [genDayOrders, List.mem_append] at hit
      rcases hit with h | h
      · obtain ⟨d, hd, hq⟩ := genItems_quantity p oid iid od.itemDraws it h
        exact ⟨od, List.mem_cons_self _ _, d, hd, hq⟩
      · obtain ⟨od', hod', d, hd, hq⟩ := ih (oid + 1) _ it h
        exact ⟨od', List.mem_cons_of_mem _ hod', d, hd, hq⟩

theorem genDayOrders_filter (c : List Customer) (p : List Product) (e day : ℤ)
    (ods : List OrderDraw) : ∀ oid iid,
    ∀ o ∈ (genDayOrders c p e day ods oid iid).1, ∃ od ∈ ods,
      ((genDayOrders c p e day ods oid iid).2.1.filter
          (fun it => decide (it.order_id = o.order_id))).map (·.subtotal)
        = od.itemDraws.map (fun d => round2 (rawAmount p d)) ∧
      o.total_amount = round2 ((od.itemDraws.map (rawAmount p)).sum) := by
  induction ods with
  | nil => intro oid iid; simp [genDayOrders]
  | cons od ods ih =>
      intro oid iid o ho
      simp only [genDayOrders, genOneOrder, List.mem_cons] at ho
      rcases ho with h | h
      · -- the head order: its id is `oid`
        have hoid : o.order_id = oid := by rw [h]
        have hnil : (genDayOrders c p e day ods (oid + 1)
            (genItems p oid iid od.itemDraws).2.2).2.1.filter
            (fun it => decide (it.order_id = o.order_id)) = [] := by
          refine List.filter_eq_nil_iff.mpr fun it hit => ?_
          have := (genDayOrders_item_bounds c p e day ods (oid + 1) _ it hit).1
          simp only [decide_eq_true_eq, hoid]
          omega
        have hself : (genItems p oid iid od.itemDraws).1.filter
            (fun it => decide (it.order_id = o.order_id))
            = (genItems p oid iid od.itemDraws).1 := by
          refine List.filter_eq_self.mpr fun it hit => ?_
          have := genItems_orderId p oid iid od.itemDraws it hit
          simp [this, hoid]
        refine ⟨od, List.mem_cons_self _ _, ?_, ?_⟩
        · simp only [genDayOrders, genOneOrder, List.filter_append]
          rw [hself, hnil, List.append_nil, genItems_subtotals]
        · rw [h]
          simp only [genItems_total]
      · -- an order of the tail: its id is above `oid`
        obtain ⟨od', hod', hsub, htot⟩ := ih (oid + 1) _ o h
        refine ⟨od', List.mem_cons_of_mem _ hod', ?_, htot⟩
        have hoid : oid + 1 ≤ o.order_id := by
          have hmem : o.order_id ∈ (genDayOrders c p e day ods (oid + 1)
              (genItems p oid iid od.itemDraws).2.2).1.map (·.order_id) :=
            List.mem_map_of_mem _ h
          rw [genDayOrders_ids] at hmem
          exact (List.mem_range'_1.mp hmem).1
        have hnil : (genItems p oid iid od.itemDraws).1.filter
            (fun it => decide (it.order_id = o.order_id)) = [] := by
          refine List.filter_eq_nil_iff.mpr fun it hit => ?_
          have := genItems_orderId p oid iid od.itemDraws it hit
          simp only [decide_eq_true_eq, this]
          omega
        simp only [genDayOrders, genOneOrder, List.filter_append]
        rw [hnil, List.nil_append]
        exact hsub

/-! ### `genDays` structure -/

theorem genDays_ids (c : List Customer) (p : List Product) (e : ℤ)
    (l : List (ℤ × List OrderDraw)) : ∀ oid iid,
    (genDays c p e l oid iid).1.map (·.order_id)
      = List.range' oid ((l.map fun x => x.2.length).sum) := by
  induction l with
  | nil => intro oid iid; simp [genDays]
  | cons pr l ih =>
      intro oid iid
      obtain ⟨day, ods⟩ := pr
      simp only [genDays, List.map_append, List.map_cons, List.sum_cons]
      rw [genDayOrders_ids, genDayOrders_oid, ih]
      have h := List.range'_append_1 oid ods.length ((l.map fun x => x.2.length).sum)
      rw [Nat.add_comm ((l.map fun x => x.2.length).sum) ods.length] at h
      exact h

theorem genDays_orders_length (c : List Customer) (p : List Product) (e : ℤ)
    (l : List (ℤ × List OrderDraw)) (oid iid : ℕ) :
    (genDays c p e l oid iid).1.length = (l.map fun x => x.2.length).sum := by
  have h := genDays_ids c p e l oid iid
  have := congrArg List.length h
  simpa using this

theorem genDays_item_bounds (c : List Customer) (p : List Product) (e : ℤ)
    (l : List (ℤ × List OrderDraw)) : ∀ oid iid,
    ∀ it ∈ (genDays c p e l oid iid).2, oid ≤ it.order_id ∧
      it.order_id < oid + (l.map fun x => x.2.length).sum := by
  induction l with
  | nil => intro oid iid; simp [genDays]
  | cons pr l ih =>
      intro oid iid it hit
      obtain ⟨day, ods⟩ := pr
      simp only [genDays, List.mem_append] at hit
      simp only [List.map_cons, List.sum_cons]
      rcases hit with h | h
      · have := genDayOrders_item_bounds c p e day ods oid iid it h
        omega
      · rw [genDayOrders_oid] at h
        have := ih (oid + ods.length) _ it h
        omega

theorem genDays_date_status (c : List Customer) (p : List Product) (e : ℤ)
    (l : List (ℤ × List OrderDraw)) : ∀ oid iid,
    ∀ o ∈ (genDays c p e l oid iid).1,
      o.status = orderStatus (e - o.order_date) ∧ ∃ pr ∈ l, o.order_date = pr.1 := by
  induction l with
  | nil => intro oid iid; simp [genDays]
  | cons pr l ih =>
      intro oid iid o ho
      obtain ⟨day, ods⟩ := pr
      simp only [genDays, List.mem_append] at ho
      rcases ho with h | h
      · obtain ⟨hd, hs⟩ := genDayOrders_date_status c p e day ods oid iid o h
        exact ⟨by rw [hd, hs], ⟨(day, ods), List.mem_cons_self _ _, hd⟩⟩
      · obtain ⟨hs, pr', hpr', hd⟩ := ih _ _ o h
        exact ⟨hs, pr', List.mem_cons_of_mem _ hpr', hd⟩

theorem genDays_quantity (c : List Customer) (p : List Product) (e : ℤ)
    (l : List (ℤ × List OrderDraw)) : ∀ oid iid,
    ∀ it ∈ (genDays c p e l oid iid).2,
      ∃ pr ∈ l, ∃ od ∈ pr.2, ∃ d ∈ od.itemDraws, it.quantity = d.quantity := by
  induction l with
  | nil => intro oid iid; simp [genDays]
  | cons pr l ih =>
      intro oid iid it hit
      obtain ⟨day, ods⟩ := pr
      simp only [genDays, List.mem_append] at hit
      rcases hit with h | h
      · obtain ⟨od, hod, d, hd, hq⟩ := genDayOrders_quantity c p e day ods oid iid it h
        exact ⟨(day, ods), List.mem_cons_self _ _, od, hod, d, hd, hq⟩
      · obtain ⟨pr', hpr', od, hod, d, hd, hq⟩ := ih _ _ it h
        exact ⟨pr', List.mem_cons_of_mem _ hpr', od, hod, d, hd, hq⟩

theorem genDays_filter (c : List Customer) (p : List Product) (e : ℤ)
    (l : List (ℤ × List OrderDraw)) : ∀ oid iid,
    ∀ o ∈ (genDays c p e l oid iid).1, ∃ pr ∈ l, ∃ od ∈ pr.2,
      ((genDays c p e l oid iid).2.filter
          (fun it => decide (it.order_id = o.order_id))).map (·.subtotal)
        = od.itemDraws.map (fun d => round2 (rawAmount p d)) ∧
      o.total_amount = round2 ((od.itemDraws.map (rawAmount p)).sum) := by
  induction l with
  | nil => intro oid iid; simp [genDays]
  | cons pr l ih =>
      intro oid iid o ho
      obtain ⟨day, ods⟩ := pr
      simp only [genDays, List.mem_append] at ho
      rcases ho with h | h
      · -- an order of this day: its id is below `oid + ods.length`
        have hoid : oid ≤ o.order_id ∧ o.order_id < oid + ods.length := by
          have hmem : o.order_id ∈
              (genDayOrders c p e day ods oid iid).1.map (·.order_id) :=
            List.mem_map_of_mem _ h
          rw [genDayOrders_ids] at hmem
          exact List.mem_range'_1.mp hmem
        obtain ⟨od, hod, hsub, htot⟩ := genDayOrders_filter c p e day ods oid iid o h
        refine ⟨(day, ods), List.mem_cons_self _ _, od, hod, ?_, htot⟩
        have hnil : (genDays c p e l (genDayOrders c p e day ods oid iid).2.2.1
            (genDayOrders c p e day ods oid iid).2.2.2).2.filter
            (fun it => decide (it.order_id = o.order_id)) = [] := by
          refine List.filter_eq_nil_iff.mpr fun it hit => ?_
          have hb := (genDays_item_bounds c p e l _ _ it hit).1
          rw [genDayOrders_oid] at hb
          simp only [decide_eq_true_eq]
          omega
        simp only [genDays, List.filter_append]
        rw [hnil, List.append_nil]
        exact hsub
      · -- an order of a later day: its id is at least `oid + ods.length`
        obtain ⟨pr', hpr', od, hod, hsub, htot⟩ := ih _ _ o h
        refine ⟨pr', List.mem_cons_of_mem _ hpr', od, hod, ?_, htot⟩
        have hoid : oid + ods.length ≤ o.order_id := by
          have hmem : o.order_id ∈ (genDays c p e l
              (genDayOrders c p e day ods oid iid).2.2.1
              (genDayOrders c p e day ods oid iid).2.2.2).1.map (·.order_id) :=
            List.mem_map_of_mem _ h
          rw [genDays_ids] at hmem
          have := (List.mem_range'_1.mp hmem).1
          rw [genDayOrders_oid] at this
          exact this
        have hnil : (genDayOrders c p e day ods oid iid).2.1.filter
            (fun it => decide (it.order_id = o.order_id)) = [] := by
          refine List.filter_eq_nil_iff.mpr fun it hit => ?_
          have := (genDayOrders_item_bounds c p e day ods oid iid it hit).2
          simp only [decide_eq_true_eq]
          omega
        simp only [genDays, List.filter_append]
        rw [hnil, List.nil_append]
        exact hsub

/-! ### Item counts -/

theorem genDays_items_length (c : List Customer) (p : List Product) (e : ℤ)
    (l : List (ℤ × List OrderDraw)) : ∀ oid iid,
    (genDays c p e l oid iid).2.length
      = (l.map fun pr => (pr.2.map (·.itemDraws.length)).sum).sum := by
  induction l with
  | nil => intro oid iid; simp [genDays]
  | cons pr l ih =>
      intro oid iid
      obtain ⟨day, ods⟩ := pr
      simp [genDays, genDayOrders_items_length, ih]

theorem sum_bounds_of_mem (ns : List ℕ) (h : ∀ n ∈ ns, 1 ≤ n ∧ n ≤ 4) :
    ns.length ≤ ns.sum ∧ ns.sum ≤ 4 * ns.length := by
  induction ns with
  | nil => simp
  | cons n ns ih =>
      have hn := h n (List.mem_cons_self _ _)
      have hns := ih fun m hm => h m (List.mem_cons_of_mem _ hm)
      simp only [List.length_cons, List.sum_cons]
      omega

theorem genDays_count_bounds (c : List Customer) (p : List Product) (e : ℤ)
    (l : List (ℤ × List OrderDraw)) (oid iid : ℕ)
    (h : ∀ pr ∈ l, ∀ od ∈ pr.2, 1 ≤ od.itemDraws.length ∧ od.itemDraws.length ≤ 4) :
    (genDays c p e l oid iid).1.length ≤ (genDays c p e l oid iid).2.length ∧
      (genDays c p e l oid iid).2.length ≤ 4 * (genDays c p e l oid iid).1.length := by
  rw [genDays_orders_length, genDays_items_length]
  have h1 : ∀ pr ∈ l, pr.2.length ≤ (pr.2.map (·.itemDraws.length)).sum := by
    intro pr hpr
    have := sum_bounds_of_mem (pr.2.map (·.itemDraws.length)) (by
      intro n hn
      obtain ⟨od, hod, rfl⟩ := List.mem_map.mp hn
      exact h pr hpr od hod)
    simpa using this.1
  have h2 : ∀ pr ∈ l, (pr.2.map (·.itemDraws.length)).sum ≤ 4 * pr.2.length := by
    intro pr hpr
    have := sum_bounds_of_mem (pr.2.map (·.itemDraws.length)) (by
      intro n hn
      obtain ⟨od, hod, rfl⟩ := List.mem_map.mp hn
      exact h pr hpr od hod)
    simpa using this.2
  constructor
  · exact List.sum_le_sum h1
  · calc (l.map fun pr => (pr.2.map (·.itemDraws.length)).sum).sum
        ≤ (l.map fun pr => 4 * pr.2.length).sum := List.sum_le_sum h2
      _ = 4 * (l.map fun pr => pr.2.length).sum := by
          rw [← List.sum_map_mul_left]

/-! ### Order status arithmetic -/

theorem statusIdx_le_four (d : ℤ) : statusIdx d ≤ 4 := by
  unfold statusIdx; omega

theorem statusIdx_recent (d : ℤ) (h0 : 0 ≤ d) (h7 : d < 7) : statusIdx d = 4 := by
  unfold statusIdx; omega

theorem statusIdx_old (d : ℤ) (h : 28 ≤ d) : statusIdx d = 0 := by
  unfold statusIdx; omega

theorem orderStatus_recent (d : ℤ) (h0 : 0 ≤ d) (h7 : d < 7) :
    orderStatus d = "cancelled" := by
  unfold orderStatus
  rw [statusIdx_recent d h0 h7]
  rfl

theorem orderStatus_old (d : ℤ) (h : 28 ≤ d) : orderStatus d = "pending" := by
  unfold orderStatus
  rw [statusIdx_old d h]
  rfl

/-! ### The walked days -/

theorem dayDraws_mem (cfg : Config) (draws : ℕ → List OrderDraw) :
    ∀ pr ∈ dayDraws cfg draws, cfg.startDay ≤ pr.1 ∧ pr.1 ≤ cfg.endDay ∧
      pr.2 = draws (pr.1 - cfg.startDay).toNat := by
  intro pr hpr
  obtain ⟨i, hi, rfl⟩ := List.mem_map.mp hpr
  rw [List.mem_range] at hi
  refine ⟨by simp, ?_, ?_⟩
  · have : (i : ℤ) < cfg.endDay + 1 - cfg.startDay := by
      omega
    simp only
    omega
  · simp only
    congr 1
    omega

/-! ### `generate_payments` structure -/

theorem generate_payments_length (os : List Order) (pd : ℕ → PaymentDraw) :
    (generate_payments os pd).length = os.length := by
  simp [generate_payments]

theorem generate_payments_map_order_id (os : List Order) (pd : ℕ → PaymentDraw) :
    (generate_payments os pd).map (·.order_id) = os.map (·.order_id) := by
  apply List.ext_getElem
  · simp [generate_payments]
  · intro i h1 h2
    simp [generate_payments, List.getElem_enum]

theorem generate_payments_getD (os : List Order) (pd : ℕ → PaymentDraw)
    (i : ℕ) (h : i < os.length) :
    (generate_payments os pd).getD i dfltPayment =
      { payment_id := i + 1
        order_id := (os.getD i dfltOrder).order_id
        payment_method := payment_methods.getD (pd i).methodIdx ""
        amount := (os.getD i dfltOrder).total_amount
        payment_status := paymentStatus (os.getD i dfltOrder).status (pd i).statusCoin
        payment_date := 24 * (os.getD i dfltOrder).order_date + (pd i).hourOffset
        transaction_id := (pd i).transaction_id
        risk_score := (pd i).riskScore } := by
  have hlen : i < (generate_payments os pd).length := by
    rw [generate_payments_length]; exact h
  rw [List.getD_eq_getElem?_getD, List.getElem?_eq_getElem hlen,
    List.getD_eq_getElem?_getD, List.getElem?_eq_getElem h]
  simp [generate_payments, List.getElem_enum]

/-! ### `_validate_data_integrity` -/

theorem ingest_table_fst (t : String) (csv : Option DataFrame) (db : Db) :
    (ingest_table t csv db).1 = tableOk t csv := by
  cases csv with
  | none => rfl
  | some df =>
      simp only [tableOk, ingest_table]
      split_ifs <;> rfl

theorem ingest_table_db_mem (t : String) (csv : Option DataFrame) (db : Db)
    (x : String × DataFrame) (hx : x ∈ (ingest_table t csv db).2) :
    x ∈ db ∨ (x.1 = t ∧ tableOk t csv = true) := by
  cases csv with
  | none => exact Or.inl hx
  | some df =>
      simp only [ingest_table] at hx
      simp only [tableOk, ingest_table]
      split_ifs at hx ⊢ with hval hmod
      · exact Or.inl hx
      · exact Or.inl hx
      · rcases List.mem_append.mp hx with h | h
        · exact Or.inl h
        · simp only [List.mem_singleton] at h
          subst h
          exact Or.inr ⟨rfl, rfl⟩

theorem ingest_foldl_results (files : String → Option DataFrame) :
    ∀ (l : List String) (acc : List (String × Bool)) (db : Db),
    (l.foldl (fun acc t =>
        let r := ingest_table t (files t) acc.2
        (acc.1 ++ [(t, r.1)], r.2)) (acc, db)).1
      = acc ++ (l.map fun t => (t, tableOk t (files t))) := by
  intro l
  induction l with
  | nil => intro acc db; simp
  | cons t l ih =>
      intro acc db
      simp only [List.foldl_cons, List.map_cons]
      rw [ih, ingest_table_fst]
      simp

theorem ingest_all_data_results (files : String → Option DataFrame) :
    (ingest_all_data files).1
      = ingestion_order.map fun t => (t, tableOk t (files t)) := by
  have h := ingest_foldl_results files ingestion_order [] []
  simpa [ingest_all_data] using h

theorem ingest_foldl_db (files : String → Option DataFrame) :
    ∀ (l : List String) (acc : List (String × Bool)) (db : Db)
      (x : String × DataFrame),
    x ∈ (l.foldl (fun acc t =>
        let r := ingest_table t (files t) acc.2
        (acc.1 ++ [(t, r.1)], r.2)) (acc, db)).2 →
      x ∈ db ∨ (x.1 ∈ l ∧ tableOk x.1 (files x.1) = true) := by
  intro l
  induction l with
  | nil => intro acc db x hx; exact Or.inl hx
  | cons t l ih =>
      intro acc db x hx
      simp only [List.foldl_cons] at hx
      rcases ih _ _ x hx with h | h
      · rcases ingest_table_db_mem t (files t) db x h with h2 | h2
        · exact Or.inl h2
        · exact Or.inr ⟨by rw [h2.1]; exact List.mem_cons_self _ _, by rw [h2.1]; exact h2.2⟩
      · exact Or.inr ⟨List.mem_cons_of_mem _ h.1, h.2⟩

theorem ingest_all_data_not_inserted (files : String → Option DataFrame)
    (t : String) (h : tableOk t (files t) = false) :
    ∀ df : DataFrame, (t, df) ∉ (ingest_all_data files).2 := by
  intro df hmem
  rcases ingest_foldl_db files ingestion_order [] [] (t, df) hmem with h2 | h2
  · simp at h2
  · rw [h2.2] at h
    exact Bool.noConfusion h

theorem lookup_map_self {β : Type} (f : String → β) :
    ∀ (l : List String) (t : String), t ∈ l →
      (l.map fun u => (u, f u)).lookup t = some (f t) := by
  intro l
  induction l with
  | nil => intro t ht; simp at ht
  | cons u l ih =>
      intro t ht
      by_cases he : t = u
      · subst he; simp
      · have ht' : t ∈ l := by
          rcases List.mem_cons.mp ht with h | h
          · exact absurd h he
          · exact h
        have hbeq : (t == u) = false := beq_eq_false_iff_ne.mpr he
        simp [List.lookup_cons, hbeq, ih t ht']

theorem hasNull_tableOk_false (t : String) (csv : Option DataFrame)
    (h : hasNullCriticalCol t csv = true) : tableOk t csv = false := by
  cases csv with
  | none => simp [hasNullCriticalCol] at h
  | some df =>
      simp only [hasNullCriticalCol] at h
      have hval : validate_data_quality df t = false := by
        unfold validate_data_quality
        dsimp only
        rw [h]
        rfl
      simp only [tableOk, ingest_table, hval]
      rfl

/-! ### Small helpers -/

theorem getD_mem_of_lt {α : Type} (l : List α) (n : ℕ) (d : α) (h : n < l.length) :
    l.getD n d ∈ l := by
  rw [List.getD_eq_getElem?_getD, List.getElem?_eq_getElem h]
  exact List.getElem_mem h

theorem generate_quick_payments_getD (os : List Order) (qd : ℕ → QuickPaymentDraw)
    (i : ℕ) (h : i < os.length) :
    (generate_quick_payments os qd).getD i dfltPayment =
      { payment_id := i + 1
        order_id := i + 1
        payment_method := quick_payment_methods.getD (qd i).methodIdx ""
        amount := (os.getD i dfltOrder).total_amount
        payment_status := quick_payment_statuses.getD (qd i).statusIdx ""
        payment_date := (os.getD i dfltOrder).order_date
        transaction_id := (qd i).transaction_id
        risk_score := (qd i).riskScore } := by
  have hlen : i < (generate_quick_payments os qd).length := by
    simp [generate_quick_payments]
    exact h
  rw [List.getD_eq_getElem?_getD (generate_quick_payments os qd) i dfltPayment,
    List.getElem?_eq_getElem hlen,
    List.getD_eq_getElem?_getD os i dfltOrder, List.getElem?_eq_getElem h]
  simp [generate_quick_payments, List.getElem_enum]

/-! ### The quick generator's item loop -/

theorem quickItemsForOrder_orderId (products : List Product) (oid : ℕ)
    (ds : List QuickItemDraw) : ∀ iid,
    ∀ it ∈ (quickItemsForOrder products oid iid ds).1, it.order_id = oid := by
  induction ds with
  | nil => intro iid; simp [quickItemsForOrder]
  | cons d ds ih =>
      intro iid it hit
      simp only [quickItemsForOrder] at hit
      cases hrow : products.filter (fun p => decide (p.product_id = d.product_id)) with
      | nil =>
          rw [hrow] at hit
          exact ih iid it hit
      | cons p ps =>
          rw [hrow] at hit
          simp only [List.mem_cons] at hit
          rcases hit with h | h
          · rw [h]
          · exact ih (iid + 1) it h

theorem quickItemsForOrder_quantity (products : List Product) (oid : ℕ)
    (ds : List QuickItemDraw) : ∀ iid,
    ∀ it ∈ (quickItemsForOrder products oid iid ds).1,
      ∃ d ∈ ds, it.quantity = d.quantity := by
  induction ds with
  | nil => intro iid; simp [quickItemsForOrder]
  | cons d ds ih =>
      intro iid it hit
      simp only [quickItemsForOrder] at hit
      cases hrow : products.filter (fun p => decide (p.product_id = d.product_id)) with
      | nil =>
          rw [hrow] at hit
          obtain ⟨d', hd', hq⟩ := ih iid it hit
          exact ⟨d', List.mem_cons_of_mem _ hd', hq⟩
      | cons p ps =>
          rw [hrow] at hit
          simp only [List.mem_cons] at hit
          rcases hit with h | h
          · exact ⟨d, List.mem_cons_self _ _, by rw [h]⟩
          · obtain ⟨d', hd', hq⟩ := ih (iid + 1) it h
            exact ⟨d', List.mem_cons_of_mem _ hd', hq⟩

theorem quickItemsForOrder_length (products : List Product) (oid : ℕ)
    (ds : List QuickItemDraw)
    (h : ∀ d ∈ ds, ∃ p ∈ products, p.product_id = d.product_id) : ∀ iid,
    (quickItemsForOrder products oid iid ds).1.length = ds.length := by
  induction ds with
  | nil => intro iid; simp [quickItemsForOrder]
  | cons d ds ih =>
      intro iid
      have hfound := h d (List.mem_cons_self _ _)
      have hne : products.filter (fun p => decide (p.product_id = d.product_id))
          ≠ [] := by
        intro hnil
        obtain ⟨p, hp, hid⟩ := hfound
        have := List.filter_eq_nil_iff.mp hnil p hp
        simp [hid] at this
      simp only [quickItemsForOrder]
      cases hrow : products.filter (fun p => decide (p.product_id = d.product_id)) with
      | nil => exact absurd hrow hne
      | cons p ps =>
          simp only [List.length_cons]
          rw [ih (fun d' hd' => h d' (List.mem_cons_of_mem _ hd')) (iid + 1)]

theorem quick_items_id_bounds (products : List Product)
    (drawss : List (List QuickItemDraw)) : ∀ oid iid,
    ∀ it ∈ generate_quick_order_items products drawss oid iid,
      oid ≤ it.order_id ∧ it.order_id < oid + drawss.length := by
  induction drawss with
  | nil => intro oid iid; simp [generate_quick_order_items]
  | cons ds rest ih =>
      intro oid iid it hit
      simp only [generate_quick_order_items, List.mem_append] at hit
      rcases hit with h | h
      · have := quickItemsForOrder_orderId products oid ds iid it h
        simp only [this, List.length_cons]
        omega
      · have := ih (oid + 1) _ it h
        simp only [List.length_cons]
        omega

theorem quick_items_quantity (products : List Product)
    (drawss : List (List QuickItemDraw)) : ∀ oid iid,
    ∀ it ∈ generate_quick_order_items products drawss oid iid,
      ∃ ds ∈ drawss, ∃ d ∈ ds, it.quantity = d.quantity := by
  induction drawss with
  | nil => intro oid iid; simp [generate_quick_order_items]
  | cons ds rest ih =>
      intro oid iid it hit
      simp only [generate_quick_order_items, List.mem_append] at hit
      rcases hit with h | h
      · obtain ⟨d, hd, hq⟩ := quickItemsForOrder_quantity products oid ds iid it h
        exact ⟨ds, List.mem_cons_self _ _, d, hd, hq⟩
      · obtain ⟨ds', hds', d, hd, hq⟩ := ih (oid + 1) _ it h
        exact ⟨ds', List.mem_cons_of_mem _ hds', d, hd, hq⟩

theorem quick_items_filter_count (products : List Product)
    (drawss : List (List QuickItemDraw)) : ∀ oid iid,
    (∀ ds ∈ drawss, ∀ d ∈ ds, ∃ p ∈ products, p.product_id = d.product_id) →
    ∀ k, k < drawss.length →
      ((generate_quick_order_items products drawss oid iid).filter
          (fun it => decide (it.order_id = oid + k))).length
        = (drawss.getD k []).length := by
  induction drawss with
  | nil => intro oid iid hfound k hk; simp at hk
  | cons ds rest ih =>
      intro oid iid hfound k hk
      simp only [generate_quick_order_items, List.filter_append, List.length_append]
      cases k with
      | zero =>
          have hself : (quickItemsForOrder products oid iid ds).1.filter
              (fun it => decide (it.order_id = oid + 0))
              = (quickItemsForOrder products oid iid ds).1 := by
            refine List.filter_eq_self.mpr fun it hit => ?_
            have := quickItemsForOrder_orderId products oid ds iid it hit
            simp [this]
          have hnil : (generate_quick_order_items products rest (oid + 1)
              (quickItemsForOrder products oid iid ds).2).filter
              (fun it => decide (it.order_id = oid + 0)) = [] := by
            refine List.filter_eq_nil_iff.mpr fun it hit => ?_
            have := (quick_items_id_bounds products rest (oid + 1) _ it hit).1
            simp only [decide_eq_true_eq]
            omega
          rw [hself, hnil]
          simp only [List.length_nil, Nat.add_zero, List.getD_cons_zero]
          exact quickItemsForOrder_length products oid ds
            (hfound ds (List.mem_cons_self _ _)) iid
      | succ j =>
          have hj : j < rest.length := by
            simp only [List.length_cons] at hk
            omega
          have hnil : (quickItemsForOrder products oid iid ds).1.filter
              (fun it => decide (it.order_id = oid + (j + 1))) = [] := by
            refine List.filter_eq_nil_iff.mpr fun it hit => ?_
            have := quickItemsForOrder_orderId products oid ds iid it hit
            simp only [decide_eq_true_eq, this]
            omega
          have hrw : oid + (j + 1) = (oid + 1) + j := by omega
          rw [hnil, hrw]
          simp only [List.length_nil, Nat.zero_add, List.getD_cons_succ]
          exact ih (oid + 1) _
            (fun ds' hds' => hfound ds' (List.mem_cons_of_mem _ hds')) j hj

theorem quick_items_total_length (products : List Product)
    (drawss : List (List QuickItemDraw)) : ∀ oid iid,
    (∀ ds ∈ drawss, 1 ≤ ds.length ∧ ds.length ≤ 3 ∧
      ∀ d ∈ ds, ∃ p ∈ products, p.product_id = d.product_id) →
    drawss.length ≤ (generate_quick_order_items products drawss oid iid).length ∧
      (generate_quick_order_items products drawss oid iid).length
        ≤ 4 * drawss.length := by
  induction drawss with
  | nil => intro oid iid h; simp [generate_quick_order_items]
  | cons ds rest ih =>
      intro oid iid h
      have hds := h ds (List.mem_cons_self _ _)
      have hblock : (quickItemsForOrder products oid iid ds).1.length = ds.length :=
        quickItemsForOrder_length products oid ds hds.2.2 iid
      have hrest := ih (oid + 1) (quickItemsForOrder products oid iid ds).2
        (fun ds' hds' => h ds' (List.mem_cons_of_mem _ hds'))
      simp only [generate_quick_order_items, List.length_append, List.length_cons,
        hblock]
      omega

/-! # Claim theorems -/

/-- C10: in the advanced generator an order's status is a deterministic
function of its order date alone, namely
`order_statuses[min(4, max(0, 4 - days_ago // 7))]` where `days_ago` is
the number of days before the range end; in particular every order dated
within 7 days of the range end is `"cancelled"` and every order dated 28
or more days before the range end is `"pending"`. -/
theorem order_status_function_of_order_date
    (cfg : Config) (customers : List Customer) (products : List Product)
    (draws : ℕ → List OrderDraw) :
    ∀ o ∈ (generate_orders_and_items cfg customers products draws).1,
      o.status = order_statuses.getD
          ((min 4 (max 0 (4 - (cfg.endDay - o.order_date) / 7))).toNat) "" ∧
      (cfg.endDay - o.order_date < 7 → o.status = "cancelled") ∧
      (28 ≤ cfg.endDay - o.order_date → o.status = "pending") := by
  intro o ho
  have hg : (generate_orders_and_items cfg customers products draws).1
      = (genDays (customers.filter (·.is_active)) (products.filter (·.is_active))
          cfg.endDay (dayDraws cfg draws) 1 1).1 := rfl
  rw [hg] at ho
  obtain ⟨hs, pr, hpr, hd⟩ := genDays_date_status _ _ _ _ 1 1 o ho
  have hmem := dayDraws_mem cfg draws pr hpr
  have hle : o.order_date ≤ cfg.endDay := by
    rw [hd]
    exact hmem.2.1
  refine ⟨?_, ?_, ?_⟩
  · rw [hs]
    rfl
  · intro h7
    rw [hs]
    exact orderStatus_recent _ (by omega) h7
  · intro h28
    rw [hs]
    exact orderStatus_old _ h28

/-- C10 witness: the single order generated on a one-day range is dated
on the range end, hence has status `"cancelled"`. -/
theorem order_status_function_of_order_date_witness :
    ((generate_orders_and_items exConfig1 [exCustomer] [exProduct]
        exDrawsSimple).1.getD 0 dfltOrder).status = "cancelled" := by
  have hlen : 0 < (generate_orders_and_items exConfig1 [exCustomer] [exProduct]
      exDrawsSimple).1.length := by decide
  have hmem := getD_mem_of_lt _ 0 dfltOrder hlen
  have h := order_status_function_of_order_date exConfig1 [exCustomer] [exProduct]
    exDrawsSimple _ hmem
  exact h.2.1 (by decide)

/-- C2 (code bug): the status bucketing is inverted with respect to the
spec and the code's own comment: an order dated 0 (or up to 6) days
before the range end — the most recent orders — gets the terminal status
`"cancelled"`, while an order dated 30 days before the range end gets the
pipeline-start status `"pending"`; the concretely generated order on the
range-end day indeed comes out `"cancelled"`. -/
theorem order_status_recent_is_cancelled_bug :
    orderStatus 0 = "cancelled" ∧ orderStatus 6 = "cancelled" ∧
      orderStatus 30 = "pending" ∧
      ((generate_orders_and_items exConfig1 [exCustomer] [exProduct]
          exDrawsSimple).1.getD 0 dfltOrder).status = "cancelled" := by
  decide

/-- C1 counterexample: an order with two items, each at a raw discounted
price of 8.004, has `total_amount = round2(16.008) = 16.01` while its
per-item subtotals round to 8.00 each, summing to 16.00 — so
`round(total_amount, 2)` differs from the sum of the item subtotals. -/
theorem order_total_not_sum_of_subtotals_cex :
    round2 (((generate_orders_and_items exConfig1 [exCustomer] [exProduct]
        exDrawsC1).1.getD 0 dfltOrder).total_amount)
      ≠ (((generate_orders_and_items exConfig1 [exCustomer] [exProduct]
          exDrawsC1).2.filter
          (fun it => decide (it.order_id =
            ((generate_orders_and_items exConfig1 [exCustomer] [exProduct]
              exDrawsC1).1.getD 0 dfltOrder).order_id))).map
          (fun it => it.subtotal)).sum := by
  simp only [generate_orders_and_items, dayDraws, exConfig1, exCustomer, exProduct,
    exDrawsC1]
  norm_num [show List.range 1 = [0] from rfl]
  simp only [genDays, genDayOrders, genOneOrder, genItems, List.filter_cons,
    List.filter_nil]
  norm_num [round2, roundHalfEven, List.getD]

/-- C1 amended: an order's `total_amount` is the cent-rounding of the sum
of the raw (unrounded) item amounts, while each stored subtotal is the
cent-rounding of one raw amount; hence `total_amount` can differ from the
sum of the stored subtotals, but by at most half a cent per item plus
half a cent (so at most 1/40 = 2.5 cents under the generator's 1–4 items
per order). -/
theorem order_total_close_to_sum_of_subtotals :
    (∀ (cfg : Config) (customers : List Customer) (products : List Product)
        (draws : ℕ → List OrderDraw),
      ∀ o ∈ (generate_orders_and_items cfg customers products draws).1,
        |o.total_amount -
            (((generate_orders_and_items cfg customers products draws).2.filter
                (fun it => decide (it.order_id = o.order_id))).map
                (fun it => it.subtotal)).sum|
          ≤ ((((generate_orders_and_items cfg customers products draws).2.filter
                (fun it => decide (it.order_id = o.order_id))).length : ℚ) + 1)
              / 200) ∧
    (∀ (cfg : Config) (customers : List Customer) (products : List Product)
        (draws : ℕ → List OrderDraw),
      ValidOrderDraws (customers.filter (·.is_active)).length
          (products.filter (·.is_active)).length draws →
      ∀ o ∈ (generate_orders_and_items cfg customers products draws).1,
        |o.total_amount -
            (((generate_orders_and_items cfg customers products draws).2.filter
                (fun it => decide (it.order_id = o.order_id))).map
                (fun it => it.subtotal)).sum| ≤ 1/40) := by
  have main : ∀ (cfg : Config) (customers : List Customer) (products : List Product)
      (draws : ℕ → List OrderDraw),
      ∀ o ∈ (generate_orders_and_items cfg customers products draws).1,
      ∃ od : OrderDraw,
        (∃ pr ∈ dayDraws cfg draws, od ∈ pr.2) ∧
        (((generate_orders_and_items cfg customers products draws).2.filter
            (fun it => decide (it.order_id = o.order_id))).length
          = od.itemDraws.length) ∧
        |o.total_amount -
            (((generate_orders_and_items cfg customers products draws).2.filter
                (fun it => decide (it.order_id = o.order_id))).map
                (fun it => it.subtotal)).sum|
          ≤ ((od.itemDraws.length : ℚ) + 1) / 200 := by
    intro cfg customers products draws o ho
    have hg : generate_orders_and_items cfg customers products draws
        = genDays (customers.filter (·.is_active)) (products.filter (·.is_active))
            cfg.endDay (dayDraws cfg draws) 1 1 := rfl
    rw [hg] at ho ⊢
    obtain ⟨pr, hpr, od, hod, hsub, htot⟩ :=
      genDays_filter (customers.filter (·.is_active)) (products.filter (·.is_active))
        cfg.endDay (dayDraws cfg draws) 1 1 o ho
    refine ⟨od, ⟨pr, hpr, hod⟩, ?_, ?_⟩
    · have := congrArg List.length hsub
      simpa using this
    · have hmm : od.itemDraws.map
          (fun d => round2 (rawAmount (products.filter (·.is_active)) d))
          = (od.itemDraws.map (rawAmount (products.filter (·.is_active)))).map
              round2 := by
        rw [List.map_map]
        rfl
      rw [htot, hsub, hmm]
      have hb := abs_round2_sum_sub_sum_round2_le
        (od.itemDraws.map (rawAmount (products.filter (·.is_active))))
      simpa using hb
  constructor
  · intro cfg customers products draws o ho
    obtain ⟨od, _, hlen, hb⟩ := main cfg customers products draws o ho
    rw [hlen]
    exact hb
  · intro cfg customers products draws hv o ho
    obtain ⟨od, ⟨pr, hpr, hod⟩, hlen, hb⟩ := main cfg customers products draws o ho
    have hod' : od ∈ draws (pr.1 - cfg.startDay).toNat := by
      rw [← (dayDraws_mem cfg draws pr hpr).2.2]
      exact hod
    have h4 : od.itemDraws.length ≤ 4 :=
      (hv (pr.1 - cfg.startDay).toNat od hod').2.2.1
    refine le_trans hb ?_
    have : (od.itemDraws.length : ℚ) ≤ 4 := by exact_mod_cast h4
    linarith

/-- C1 amended witness: for the two-item counterexample order the gap
between `total_amount` and the sum of its subtotals is within the proved
bound. -/
theorem order_total_close_to_sum_of_subtotals_witness :
    |(((generate_orders_and_items exConfig1 [exCustomer] [exProduct]
          exDrawsC1).1.getD 0 dfltOrder).total_amount) -
        (((generate_orders_and_items exConfig1 [exCustomer] [exProduct]
            exDrawsC1).2.filter
            (fun it => decide (it.order_id =
              ((generate_orders_and_items exConfig1 [exCustomer] [exProduct]
                exDrawsC1).1.getD 0 dfltOrder).order_id))).map
            (fun it => it.subtotal)).sum|
      ≤ 1/40 := by
  have hlen : 0 < (generate_orders_and_items exConfig1 [exCustomer] [exProduct]
      exDrawsC1).1.length := by decide
  have hmem := getD_mem_of_lt _ 0 dfltOrder hlen
  have hv : ValidOrderDraws ([exCustomer].filter (·.is_active)).length
      ([exProduct].filter (·.is_active)).length exDrawsC1 := by
    intro i od hod
    simp only [exDrawsC1] at hod
    by_cases hi : i = 0
    · rw [if_pos hi, List.mem_singleton] at hod
      subst hod
      refine ⟨by decide, by decide, by decide, ?_⟩
      intro d hd
      have : d = ⟨0, 1, 2001/2500⟩ := by
        rcases List.mem_cons.mp hd with h | h
        · exact h
        · simpa using h
      subst this
      exact ⟨by decide, Or.inl rfl, by norm_num, by norm_num⟩
    · rw [if_neg hi] at hod
      simp at hod
  exact order_total_close_to_sum_of_subtotals.2 exConfig1 [exCustomer] [exProduct]
    exDrawsC1 hv _ hmem

/-- C4: a table whose CSV has a null in a declared critical column is
marked failed, none of its rows reach the database, every table of the
fixed ingestion order still gets processed, and the success flag of every
other table is unaffected by that table's contents. -/
theorem ingestion_null_critical_isolated :
    ∀ (files : String → Option DataFrame) (t : String),
      t ∈ ingestion_order →
      hasNullCriticalCol t (files t) = true →
      (ingest_all_data files).1.lookup t = some false ∧
      (∀ df : DataFrame, (t, df) ∉ (ingest_all_data files).2) ∧
      (ingest_all_data files).1.map Prod.fst = ingestion_order ∧
      (∀ files' : String → Option DataFrame,
        (∀ u, u ≠ t → files' u = files u) →
        ∀ u ∈ ingestion_order, u ≠ t →
          (ingest_all_data files').1.lookup u
            = (ingest_all_data files).1.lookup u) := by
  intro files t ht hnull
  have hfalse := hasNull_tableOk_false t (files t) hnull
  refine ⟨?_, ?_, ?_, ?_⟩
  · rw [ingest_all_data_results, lookup_map_self _ ingestion_order t ht, hfalse]
  · exact ingest_all_data_not_inserted files t hfalse
  · rw [ingest_all_data_results, List.map_map]
    exact List.map_id _
  · intro files' hfe u hu hne
    rw [ingest_all_data_results, ingest_all_data_results,
      lookup_map_self _ ingestion_order u hu, lookup_map_self _ ingestion_order u hu,
      hfe u hne]

/-- C4 witness: with a null email in the customers CSV, customers is
reported failed, all five tables are still reported, and the orders
flag matches the clean run's. -/
theorem ingestion_null_critical_isolated_witness :
    (ingest_all_data filesBad).1.lookup "customers" = some false ∧
    (ingest_all_data filesBad).1.map Prod.fst = ingestion_order ∧
    (ingest_all_data filesOk).1.lookup "orders"
      = (ingest_all_data filesBad).1.lookup "orders" := by
  have h := ingestion_null_critical_isolated filesBad "customers" (by decide)
    (by decide)
  refine ⟨h.1, h.2.2.1, ?_⟩
  refine h.2.2.2 filesOk ?_ "orders" (by decide) (by decide)
  intro u hu
  simp [filesOk, filesBad, hu]

/-- C5 counterexample: the quick test generator
(`generate_synthetic_data.py`) copies each order's `order_date` as the
payment's `payment_date`, so the payment paying order 1 is not strictly
after that order's date. -/
theorem quick_payment_date_not_after_order_date_cex :
    ((generate_quick_payments [exOrder] exQuickDraw).getD 0 dfltPayment).order_id
        = exOrder.order_id ∧
    ¬ (exOrder.order_date <
        ((generate_quick_payments [exOrder] exQuickDraw).getD 0
          dfltPayment).payment_date) := by
  decide

/-- C5 amended: in the advanced generator every payment's timestamp is
strictly after its order's date (a 1–23 hour offset past midnight of the
order day), while the quick test generator's payments carry exactly their
order's timestamp. -/
theorem payment_date_after_order_date_amended :
    (∀ (orders : List Order) (pd : ℕ → PaymentDraw),
      (∀ i, ValidPaymentDraw (pd i)) →
      ∀ i, i < orders.length →
        ((generate_payments orders pd).getD i dfltPayment).order_id
            = (orders.getD i dfltOrder).order_id ∧
        24 * (orders.getD i dfltOrder).order_date
            < ((generate_payments orders pd).getD i dfltPayment).payment_date) ∧
    (∀ (orders : List Order) (qd : ℕ → QuickPaymentDraw),
      ∀ i, i < orders.length →
        ((generate_quick_payments orders qd).getD i dfltPayment).payment_date
          = (orders.getD i dfltOrder).order_date) := by
  constructor
  · intro orders pd hv i hi
    rw [generate_payments_getD orders pd i hi]
    refine ⟨rfl, ?_⟩
    have h1 := (hv i).1
    simp only
    omega
  · intro orders qd i hi
    rw [generate_quick_payments_getD orders qd i hi]

/-- C5 amended witness: the advanced payment for a concrete order lands
strictly after the order's day, the quick payment exactly on it. -/
theorem payment_date_after_order_date_amended_witness :
    24 * (([exOrder].getD 0 dfltOrder).order_date)
        < ((generate_payments [exOrder] exPayDraw).getD 0 dfltPayment).payment_date ∧
    ((generate_quick_payments [exOrder] exQuickDraw).getD 0
        dfltPayment).payment_date = ([exOrder].getD 0 dfltOrder).order_date := by
  have hv : ∀ i, ValidPaymentDraw (exPayDraw i) := by
    intro i
    show ValidPaymentDraw ⟨5, 1, 0, "tx", 0⟩
    decide
  constructor
  · exact (payment_date_after_order_date_amended.1 [exOrder] exPayDraw
      hv 0 (by decide)).2
  · exact payment_date_after_order_date_amended.2 [exOrder] exQuickDraw 0 (by decide)

/-- C6: the advanced generator emits exactly one payment per order row
(same order ids, in order, hence equal per-id counts), and the payment
status follows the order status: a cancelled order's payment is
`"refunded"` or `"failed"` by a fair coin (`rng.random() > 0.5`), any
other order's payment is `"completed"` unless the 5% failure coin makes
it `"failed"`. -/
theorem one_payment_per_order_status_rule :
    ∀ (orders : List Order) (pd : ℕ → PaymentDraw),
      (generate_payments orders pd).length = orders.length ∧
      (generate_payments orders pd).map (·.order_id) = orders.map (·.order_id) ∧
      (∀ oid : ℕ,
        ((generate_payments orders pd).filter
            (fun q => decide (q.order_id = oid))).length
          = (orders.filter (fun o => decide (o.order_id = oid))).length) ∧
      ∀ i, i < orders.length →
        ((orders.getD i dfltOrder).status = "cancelled" →
          ((generate_payments orders pd).getD i dfltPayment).payment_status
            = (if (pd i).statusCoin > 1/2 then "refunded" else "failed")) ∧
        ((orders.getD i dfltOrder).status ≠ "cancelled" →
          ((generate_payments orders pd).getD i dfltPayment).payment_status
            = (if (pd i).statusCoin > 1/20 then "completed" else "failed")) := by
  intro orders pd
  refine ⟨generate_payments_length orders pd, generate_payments_map_order_id orders pd,
    ?_, ?_⟩
  · intro oid
    have h := generate_payments_map_order_id orders pd
    have e1 : List.countP (fun q => decide (q.order_id = oid))
        (generate_payments orders pd)
        = List.countP (fun n => decide (n = oid))
            ((generate_payments orders pd).map (·.order_id)) := by
      rw [List.countP_map]
      rfl
    have e2 : List.countP (fun o => decide (o.order_id = oid)) orders
        = List.countP (fun n => decide (n = oid)) (orders.map (·.order_id)) := by
      rw [List.countP_map]
      rfl
    rw [← List.countP_eq_length_filter, ← List.countP_eq_length_filter, e1, e2, h]
  · intro i hi
    rw [generate_payments_getD orders pd i hi]
    constructor
    · intro hc
      simp only [paymentStatus, hc, if_true]
    · intro hc
      simp only [paymentStatus]
      rw [if_neg hc]

/-- C6 witness: with two concrete orders the payments carry the same
order ids, the cancelled order's payment is refunded (coin 1 > 0.5) and
the pending order's payment is completed (coin 1 > 0.05). -/
theorem one_payment_per_order_status_rule_witness :
    (generate_payments [exOrder, exOrderCancelled] exPayDraw).map (·.order_id)
        = [exOrder, exOrderCancelled].map (·.order_id) ∧
    ((generate_payments [exOrder, exOrderCancelled] exPayDraw).getD 1
        dfltPayment).payment_status = "refunded" ∧
    ((generate_payments [exOrder, exOrderCancelled] exPayDraw).getD 0
        dfltPayment).payment_status = "completed" := by
  have h := one_payment_per_order_status_rule [exOrder, exOrderCancelled] exPayDraw
  refine ⟨h.2.1, ?_, ?_⟩
  · have h1 := (h.2.2.2 1 (by decide)).1 (by decide)
    rw [h1]
    norm_num [exPayDraw]
  · have h0 := (h.2.2.2 0 (by decide)).2 (by decide)
    rw [h0]
    norm_num [exPayDraw]

/-- C8: with the ranges the RNG calls guarantee, both generators obey the
claim. Advanced generator (`rng.integers(1, 5)` items,
`rng.integers(1, 3)` quantity): every generated order has between 1 and 4
order items, every item's quantity is 1 or 2, and the total item count
lies between the order count and 4 times the order count. Quick
generator (`np.random.randint(1, 4)` items, `np.random.randint(1, 3)`
quantity, every drawn product id present): each of the n orders
(`order_id = k + 1` for `k < n`) likewise has between 1 and 4 items,
every quantity is 1 or 2, and the total item count lies between n and
4n. -/
theorem order_items_count_bounds :
    (∀ (cfg : Config) (customers : List Customer) (products : List Product)
      (draws : ℕ → List OrderDraw),
      ValidOrderDraws (customers.filter (·.is_active)).length
          (products.filter (·.is_active)).length draws →
      (∀ o ∈ (generate_orders_and_items cfg customers products draws).1,
        1 ≤ ((generate_orders_and_items cfg customers products draws).2.filter
            (fun it => decide (it.order_id = o.order_id))).length ∧
        ((generate_orders_and_items cfg customers products draws).2.filter
            (fun it => decide (it.order_id = o.order_id))).length ≤ 4) ∧
      (∀ it ∈ (generate_orders_and_items cfg customers products draws).2,
        it.quantity = 1 ∨ it.quantity = 2) ∧
      ((generate_orders_and_items cfg customers products draws).1.length
          ≤ (generate_orders_and_items cfg customers products draws).2.length ∧
        (generate_orders_and_items cfg customers products draws).2.length
          ≤ 4 * (generate_orders_and_items cfg customers products draws).1.length)) ∧
    (∀ (products : List Product) (drawss : List (List QuickItemDraw)),
      ValidQuickItemDraws products drawss →
      (∀ k, k < drawss.length →
        1 ≤ ((generate_quick_order_items products drawss 1 1).filter
            (fun it => decide (it.order_id = 1 + k))).length ∧
        ((generate_quick_order_items products drawss 1 1).filter
            (fun it => decide (it.order_id = 1 + k))).length ≤ 4) ∧
      (∀ it ∈ generate_quick_order_items products drawss 1 1,
        it.quantity = 1 ∨ it.quantity = 2) ∧
      (drawss.length ≤ (generate_quick_order_items products drawss 1 1).length ∧
        (generate_quick_order_items products drawss 1 1).length
          ≤ 4 * drawss.length)) := by
  constructor
  · intro cfg customers products draws hv
    have hg : generate_orders_and_items cfg customers products draws
        = genDays (customers.filter (·.is_active)) (products.filter (·.is_active))
            cfg.endDay (dayDraws cfg draws) 1 1 := rfl
    rw [hg]
    have hvl : ∀ pr ∈ dayDraws cfg draws, ∀ od ∈ pr.2,
        ValidOrderDraw (customers.filter (·.is_active)).length
          (products.filter (·.is_active)).length od := by
      intro pr hpr od hod
      have h := (dayDraws_mem cfg draws pr hpr).2.2
      rw [h] at hod
      exact hv _ od hod
    refine ⟨?_, ?_, ?_⟩
    · intro o ho
      obtain ⟨pr, hpr, od, hod, hsub, _⟩ :=
        genDays_filter (customers.filter (·.is_active))
          (products.filter (·.is_active)) cfg.endDay (dayDraws cfg draws) 1 1 o ho
      have hlen : ((genDays (customers.filter (·.is_active))
          (products.filter (·.is_active)) cfg.endDay
            (dayDraws cfg draws) 1 1).2.filter
            (fun it => decide (it.order_id = o.order_id))).length
          = od.itemDraws.length := by
        have := congrArg List.length hsub
        simpa using this
      have hodv := hvl pr hpr od hod
      rw [hlen]
      exact ⟨hodv.2.1, hodv.2.2.1⟩
    · intro it hit
      obtain ⟨pr, hpr, od, hod, d, hd, hq⟩ :=
        genDays_quantity (customers.filter (·.is_active))
          (products.filter (·.is_active)) cfg.endDay (dayDraws cfg draws) 1 1 it hit
      have hdv := (hvl pr hpr od hod).2.2.2 d hd
      rw [hq]
      exact hdv.2.1
    · exact genDays_count_bounds (customers.filter (·.is_active))
        (products.filter (·.is_active)) cfg.endDay (dayDraws cfg draws) 1 1
        (fun pr hpr od hod => ⟨(hvl pr hpr od hod).2.1, (hvl pr hpr od hod).2.2.1⟩)
  · intro products drawss hv
    have hfound : ∀ ds ∈ drawss, ∀ d ∈ ds,
        ∃ p ∈ products, p.product_id = d.product_id :=
      fun ds hds d hd => ((hv ds hds).2.2 d hd).2
    refine ⟨?_, ?_, ?_⟩
    · intro k hk
      have hcount := quick_items_filter_count products drawss 1 1 hfound k hk
      rw [hcount]
      have hmem : drawss.getD k [] ∈ drawss :=
        getD_mem_of_lt drawss k [] hk
      have hds := hv _ hmem
      exact ⟨hds.1, by omega⟩
    · intro it hit
      obtain ⟨ds, hds, d, hd, hq⟩ := quick_items_quantity products drawss 1 1 it hit
      have := ((hv ds hds).2.2 d hd).1
      rw [hq]
      exact this
    · exact quick_items_total_length products drawss 1 1
        (fun ds hds => ⟨(hv ds hds).1, (hv ds hds).2.1,
          fun d hd => ((hv ds hds).2.2 d hd).2⟩)

/-- C8 witness: the two-item advanced draw is valid and the generated
counts obey the bounds; the two-item quick draw is valid and its counts
obey the bounds too. -/
theorem order_items_count_bounds_witness :
    (ValidOrderDraws ([exCustomer].filter (·.is_active)).length
        ([exProduct].filter (·.is_active)).length exDrawsC1 ∧
      ((generate_orders_and_items exConfig1 [exCustomer] [exProduct]
          exDrawsC1).1.length
        ≤ (generate_orders_and_items exConfig1 [exCustomer] [exProduct]
            exDrawsC1).2.length ∧
        (generate_orders_and_items exConfig1 [exCustomer] [exProduct]
            exDrawsC1).2.length
          ≤ 4 * (generate_orders_and_items exConfig1 [exCustomer] [exProduct]
              exDrawsC1).1.length)) ∧
    (ValidQuickItemDraws [exProduct] exQuickItems ∧
      (exQuickItems.length
          ≤ (generate_quick_order_items [exProduct] exQuickItems 1 1).length ∧
        (generate_quick_order_items [exProduct] exQuickItems 1 1).length
          ≤ 4 * exQuickItems.length)) := by
  have hv : ValidOrderDraws ([exCustomer].filter (·.is_active)).length
      ([exProduct].filter (·.is_active)).length exDrawsC1 := by
    intro i od hod
    simp only [exDrawsC1] at hod
    by_cases hi : i = 0
    · rw [if_pos hi, List.mem_singleton] at hod
      subst hod
      refine ⟨by decide, by decide, by decide, ?_⟩
      intro d hd
      have hde : d = ⟨0, 1, 2001/2500⟩ := by
        rcases List.mem_cons.mp hd with h | h
        · exact h
        · simpa using h
      subst hde
      exact ⟨by decide, Or.inl rfl, by norm_num, by norm_num⟩
    · rw [if_neg hi] at hod
      simp at hod
  have hq : ValidQuickItemDraws [exProduct] exQuickItems := by
    intro ds hds
    have hde : ds = [⟨1, 1⟩, ⟨1, 2⟩] := by
      simpa [exQuickItems] using hds
    subst hde
    refine ⟨by decide, by decide, ?_⟩
    intro d hd
    rcases List.mem_cons.mp hd with h | h
    · subst h
      exact ⟨Or.inl rfl, exProduct, List.mem_singleton_self _, by decide⟩
    · have hde : d = ⟨1, 2⟩ := by simpa using h
      subst hde
      exact ⟨Or.inr rfl, exProduct, List.mem_singleton_self _, by decide⟩
  exact ⟨⟨hv, (order_items_count_bounds.1 exConfig1 [exCustomer] [exProduct]
      exDrawsC1 hv).2.2⟩,
    ⟨hq, (order_items_count_bounds.2 [exProduct] exQuickItems hq).2.2⟩⟩

/-- C9: the ingestion entry point exits 0 exactly when every table's
ingestion succeeded; one failed table already forces exit code 1. -/
theorem ingestion_exit_code :
    ∀ files : String → Option DataFrame,
      ((∀ r ∈ (ingest_all_data files).1, r.2 = true) →
        ingestion_main_exit files = 0) ∧
      ((∃ r ∈ (ingest_all_data files).1, r.2 = false) →
        ingestion_main_exit files = 1 ∧ ingestion_main_exit files ≠ 0) := by
  intro files
  constructor
  · intro h
    unfold ingestion_main_exit
    dsimp only
    rw [if_pos]
    rw [List.all_eq_true]
    exact h
  · intro hex
    obtain ⟨r, hr, hfalse⟩ := hex
    have hall : ((ingest_all_data files).1.all fun r => r.2) = false := by
      cases hb : ((ingest_all_data files).1.all fun r => r.2) with
      | false => rfl
      | true =>
          rw [List.all_eq_true] at hb
          have := hb r hr
          rw [hfalse] at this
          exact Bool.noConfusion this
    unfold ingestion_main_exit
    dsimp only
    rw [hall]
    exact ⟨rfl, one_ne_zero⟩

/-- C9 witness: a clean run exits 0; a run whose customers CSV has a
null email exits 1. -/
theorem ingestion_exit_code_witness :
    ingestion_main_exit filesOk = 0 ∧ ingestion_main_exit filesBad = 1 := by
  refine ⟨(ingestion_exit_code filesOk).1 (by decide), ?_⟩
  exact ((ingestion_exit_code filesBad).2 (by decide)).1

end EcommercePipeline
